import Mathlib

/-!
Shallow embedding of the monitoring service (src/src/index.ts): the health
prober `checkServiceHealth`, the polling cycle `monitorServices`, the
status store (a JS `Map` from service name to `ServiceStatus`), the
WebSocket broadcast hub, and the `/api/status` summary endpoint.

Network I/O is modelled by passing the probe outcome (the result of the
`axios.get` call, as observed inside the `try`/`catch`) as an explicit
argument; wall-clock reads (`Date.now()`, `new Date()`) are passed as
explicit numeric timestamps.
-/

namespace Monitoring

/-- Status classification enum from the `ServiceStatus` interface:
`'healthy' | 'unhealthy' | 'unknown'`. -/
inductive HealthState where
  | healthy
  | unhealthy
  | unknown
deriving DecidableEq

/-- A monitored target: one element of the `services` array (name + url). -/
structure ServiceTarget where
  name : String
  url : String
deriving DecidableEq

/-- The `ServiceStatus` interface. `lastCheck : Date` is modelled as a
numeric timestamp; `error?: string` as `Option String`. -/
structure ServiceStatus where
  name : String
  status : HealthState
  responseTime : Nat
  lastCheck : Nat
  uptime : Nat
  error : Option String
deriving DecidableEq

/-- The static `services` registry (src lines 21-29). -/
def services : List ServiceTarget :=
  [ { name := "backend", url := "http://localhost:5000/health" },
    { name := "core", url := "http://localhost:3000/health" },
    { name := "admin", url := "http://localhost:3010" },
    { name := "guest", url := "http://localhost:3011" },
    { name := "staff", url := "http://localhost:3012" },
    { name := "marketplace", url := "http://localhost:3013" },
    { name := "gateway", url := "http://localhost:8080/health" } ]

/-- Outcome of the `axios.get(service.url, { timeout: 5000, validateStatus })`
call, as observed by `checkServiceHealth`: either an HTTP response with a
status code arrived, or the request failed at the transport level (network
error or the 5000 ms timeout) with the error message axios attached. -/
inductive ProbeOutcome where
  | response (code : Nat)
  | transportFailure (msg : String)
deriving DecidableEq

/-- Message of the rejection axios produces when `validateStatus` refuses a
response status code (the `validateStatus: (status) => status < 500` option
at src line 49 rejects codes >= 500). -/
def axiosRejectMessage (code : Nat) : String :=
  "Request failed with status code " ++ toString code

/-- Embedding of `checkServiceHealth` (src lines 43-73). The probe outcome,
the measured response time (`Date.now() - startTime`) and the completion
timestamp (`new Date()`) are explicit arguments. A response whose code
satisfies the source's `validateStatus` predicate `status < 500` resolves
the promise and takes the `try` branch; a code >= 500 makes axios reject,
landing in the `catch` branch with `axiosRejectMessage`; a transport
failure or timeout lands in the `catch` branch with its own message. -/
def checkServiceHealth (service : ServiceTarget) (outcome : ProbeOutcome)
    (responseTime : Nat) (now : Nat) : ServiceStatus :=
  match outcome with
  | .response code =>
      if code < 500 then
        { name := service.name
          status := .healthy
          responseTime := responseTime
          lastCheck := now
          uptime := if code = 200 then 100 else 90
          error := none }
      else
        { name := service.name
          status := .unhealthy
          responseTime := responseTime
          lastCheck := now
          uptime := 0
          error := some (axiosRejectMessage code) }
  | .transportFailure msg =>
      { name := service.name
        status := .unhealthy
        responseTime := responseTime
        lastCheck := now
        uptime := 0
        error := some msg }

/-- The status store `serviceStatuses : Map<string, ServiceStatus>`,
modelled as an association list in insertion order. A JS `Map` never holds
two bindings for one key; the store invariant below tracks this. -/
abbrev StatusStore := List (String × ServiceStatus)

/-- JS `Map.prototype.set`: replace the binding of an existing key in place
(keeping insertion order), otherwise append a new binding. -/
def mapSet : StatusStore → String → ServiceStatus → StatusStore
  | [], k, v => [(k, v)]
  | p :: rest, k, v => if p.1 = k then (k, v) :: rest else p :: mapSet rest k v

/-- JS `Map.prototype.get`: the value bound to a key, if any. -/
def storeGet (m : StatusStore) (k : String) : Option ServiceStatus :=
  (m.find? (fun p => p.1 == k)).map Prod.snd

/-- JS `Array.from(serviceStatuses.values())`: the stored records in
insertion order. -/
def storeValues (m : StatusStore) : List ServiceStatus :=
  m.map Prod.snd

/-- Number of bindings a key has in the store (1 for a present key of a
real `Map`, 0 for an absent one). -/
def countKey (m : StatusStore) (k : String) : Nat :=
  m.countP (fun p => p.1 == k)

/-- One settled result of `Promise.allSettled` over the per-target
`checkServiceHealth` calls: `fulfilled` carries the `ServiceStatus` the
prober returned; `rejected` is a prober invocation that failed to produce
a result (an internal fault). -/
inductive ProbeResult where
  | fulfilled (s : ServiceStatus)
  | rejected
deriving DecidableEq

/-- The key `monitorServices` stores a result under:
`services[index]?.name || 'unknown'` (an empty — falsy — name falls back
to `'unknown'`; the index is always in range, so only the falsy fallback
matters). -/
def cycleKey (t : ServiceTarget) : String :=
  if t.name = "" then "unknown" else t.name

/-- The record `monitorServices` writes for one settled result
(src lines 85-99): a fulfilled prober result is stored as-is; a rejected
one is replaced by a synthesized `unknown` status with zero uptime and the
fixed error `'Health check failed'`. -/
def settleStatus (serviceName : String) (r : ProbeResult) (now : Nat) : ServiceStatus :=
  match r with
  | .fulfilled s => s
  | .rejected =>
      { name := serviceName
        status := .unknown
        responseTime := 0
        lastCheck := now
        uptime := 0
        error := some "Health check failed" }

/-- The store-updating fold of `monitorServices` over the settled results,
generalized over the (target, result) pairs. -/
def cycleFold (pairs : List (ServiceTarget × ProbeResult)) (now : Nat)
    (store : StatusStore) : StatusStore :=
  pairs.foldl
    (fun st pr => mapSet st (cycleKey pr.1) (settleStatus (cycleKey pr.1) pr.2 now))
    store

/-- Embedding of the store update of `monitorServices` (src lines 76-100):
`results.forEach((result, index) => ... serviceStatuses.set(...))`, where
`results` are the settled outcomes of the concurrent `checkServiceHealth`
calls, in registry order. -/
def runCycle (targets : List ServiceTarget) (results : List ProbeResult)
    (now : Nat) (store : StatusStore) : StatusStore :=
  cycleFold (targets.zip results) now store

/-- The `error` field discipline of `ServiceStatus`: an error string is
present only when the status is not `healthy`. -/
def errorOnlyWhenUnhealthy (s : ServiceStatus) : Prop :=
  s.status = HealthState.healthy → s.error = none

/-- A WebSocket client connection as the hub sees it: `id` identifies the
connection object in the `clients` set, `readyState` is the ws readyState
(1 = `WebSocket.OPEN`), and `sendFails` records whether the underlying
transport write on this connection fails (environment behaviour; the
source never reads it). -/
structure WsClient where
  id : Nat
  readyState : Nat
  sendFails : Bool
deriving DecidableEq

/-- The live snapshot message `{ type: 'status', data, timestamp? }`; the
connect-time snapshot (src lines 117-120) has no timestamp field, the
per-cycle broadcast (src lines 129-133) carries one. -/
structure StatusMessage where
  type : String
  data : List ServiceStatus
  timestamp : Option String
deriving DecidableEq

/-- The `statusData` payload built once per broadcast (src lines 129-133):
the full snapshot of stored statuses plus the broadcast timestamp. -/
def statusData (store : StatusStore) (ts : String) : StatusMessage :=
  { type := "status", data := storeValues store, timestamp := some ts }

/-- Embedding of `broadcastStatus` (src lines 128-140): build `statusData`
once from the store, then send it to every client in the live set whose
`readyState` is 1 (`WebSocket.OPEN`). The result is the list of
(client id, message) sends performed, in iteration order. -/
def broadcastStatus (clients : List WsClient) (store : StatusStore) (ts : String) :
    List (Nat × StatusMessage) :=
  (clients.filter (fun c => c.readyState == 1)).map
    (fun c => (c.id, statusData store ts))

/-- One full `monitorServices` invocation (src lines 76-104): update the
store from the settled results, then broadcast the updated snapshot to the
live clients. Returns the updated store and the sends of the one
broadcast. -/
def monitorCycle (targets : List ServiceTarget) (results : List ProbeResult)
    (now : Nat) (store : StatusStore) (clients : List WsClient) (ts : String) :
    StatusStore × List (Nat × StatusMessage) :=
  (runCycle targets results now store,
    broadcastStatus clients (runCycle targets results now store) ts)

/-- Embedding of `clients.add(ws)` on the JS `Set` (src line 114): adds the connection
if it is not already present. -/
def setAdd (clients : List WsClient) (ws : WsClient) : List WsClient :=
  if clients.any (fun c => c.id == ws.id) then clients else clients ++ [ws]

/-- Embedding of the `wss.on('connection')` handler (src lines 112-126):
register the connection in the live set and immediately send it exactly
one snapshot of the current store contents (this message has no timestamp
field). -/
def handleConnection (clients : List WsClient) (ws : WsClient) (store : StatusStore) :
    List WsClient × StatusMessage :=
  (setAdd clients ws,
    { type := "status", data := storeValues store, timestamp := none })

/-- Embedding of the `ws.on('close')` handler (src lines 122-125):
`clients.delete(ws)` removes the connection from the live set. The ws
transport fires this event for a connection whose socket has failed, so a
connection whose send failed is removed before the next broadcast. -/
def handleClose (clients : List WsClient) (ws : WsClient) : List WsClient :=
  clients.filter (fun c => c.id != ws.id)

/-- The summary object of the `/api/status` route (src lines 152-166). -/
structure StatusSummary where
  totalServices : Nat
  healthyServices : Nat
  unhealthyServices : Nat
  overallHealth : String
deriving DecidableEq

/-- Embedding of the `/api/status` handler's summary (src lines 152-166):
`healthyCount` filters the stored statuses for `healthy`;
`unhealthyServices` is `statuses.length - healthyCount`; `overallHealth`
is `'healthy'` when `healthyCount === statuses.length`, else
`'degraded'`. -/
def apiStatus (store : StatusStore) : StatusSummary :=
  let statuses := storeValues store
  let healthyCount := (statuses.filter (fun s => s.status = HealthState.healthy)).length
  { totalServices := statuses.length
    healthyServices := healthyCount
    unhealthyServices := statuses.length - healthyCount
    overallHealth := if healthyCount = statuses.length then "healthy" else "degraded" }

end Monitoring

namespace Monitoring

/-- C1: a probe whose HTTP GET completes with a status code < 500 yields
`status = healthy`, with uptime 100 exactly for code 200 and 90 for every
other accepted (sub-500) code. -/
theorem sub500_probe_healthy (service : ServiceTarget) (code responseTime now : Nat)
    (h : code < 500) :
    (checkServiceHealth service (.response code) responseTime now).status = .healthy ∧
    (code = 200 →
      (checkServiceHealth service (.response code) responseTime now).uptime = 100) ∧
    (code ≠ 200 →
      (checkServiceHealth service (.response code) responseTime now).uptime = 90) := by
  refine ⟨?_, fun h200 => ?_, fun h200 => ?_⟩
  · simp [checkServiceHealth, h]
  · simp [checkServiceHealth, h, h200]
  · simp [checkServiceHealth, h, h200]

/-- Witness for C1: concrete probes at codes 200 and 404. -/
theorem sub500_probe_healthy_witness :
    ((checkServiceHealth ⟨"backend", "u"⟩ (.response 200) 5 0).status = .healthy ∧
      (200 = 200 → (checkServiceHealth ⟨"backend", "u"⟩ (.response 200) 5 0).uptime = 100) ∧
      (200 ≠ 200 → (checkServiceHealth ⟨"backend", "u"⟩ (.response 200) 5 0).uptime = 90)) ∧
    ((checkServiceHealth ⟨"core", "v"⟩ (.response 404) 7 1).status = .healthy ∧
      (404 = 200 → (checkServiceHealth ⟨"core", "v"⟩ (.response 404) 7 1).uptime = 100) ∧
      (404 ≠ 200 → (checkServiceHealth ⟨"core", "v"⟩ (.response 404) 7 1).uptime = 90)) :=
  ⟨sub500_probe_healthy ⟨"backend", "u"⟩ 200 5 0 (by decide),
    sub500_probe_healthy ⟨"core", "v"⟩ 404 7 1 (by decide)⟩

/-- C2: a failed probe (transport failure or timeout, carrying axios's
non-empty error message, or a response with code >= 500) yields
`status = unhealthy`, `uptime = 0`, and a non-empty error string. -/
theorem failed_probe_unhealthy (service : ServiceTarget) (outcome : ProbeOutcome)
    (responseTime now : Nat)
    (h : (∃ msg, outcome = .transportFailure msg ∧ msg ≠ "") ∨
      (∃ code, outcome = .response code ∧ 500 ≤ code)) :
    (checkServiceHealth service outcome responseTime now).status = .unhealthy ∧
    (checkServiceHealth service outcome responseTime now).uptime = 0 ∧
    ∃ e, (checkServiceHealth service outcome responseTime now).error = some e ∧ e ≠ "" := by
  rcases h with ⟨msg, hout, hmsg⟩ | ⟨code, hout, hcode⟩
  · subst hout
    exact ⟨rfl, rfl, msg, rfl, hmsg⟩
  · subst hout
    have hlt : ¬ code < 500 := Nat.not_lt.mpr hcode
    refine ⟨?_, ?_, axiosRejectMessage code, ?_, ?_⟩
    · simp [checkServiceHealth, hlt]
    · simp [checkServiceHealth, hlt]
    · simp [checkServiceHealth, hlt]
    · intro hempty
      have hlen : (axiosRejectMessage code).length = 0 := by rw [hempty]; rfl
      rw [axiosRejectMessage, String.length_append] at hlen
      have h32 : ("Request failed with status code ").length = 32 := rfl
      omega

/-- Witness for C2: a concrete timeout failure and a concrete 503 response. -/
theorem failed_probe_unhealthy_witness :
    ((checkServiceHealth ⟨"guest", "u"⟩ (.transportFailure "timeout of 5000ms exceeded") 5000 9).status = .unhealthy ∧
      (checkServiceHealth ⟨"guest", "u"⟩ (.transportFailure "timeout of 5000ms exceeded") 5000 9).uptime = 0 ∧
      ∃ e, (checkServiceHealth ⟨"guest", "u"⟩ (.transportFailure "timeout of 5000ms exceeded") 5000 9).error = some e ∧ e ≠ "") ∧
    ((checkServiceHealth ⟨"staff", "v"⟩ (.response 503) 12 9).status = .unhealthy ∧
      (checkServiceHealth ⟨"staff", "v"⟩ (.response 503) 12 9).uptime = 0 ∧
      ∃ e, (checkServiceHealth ⟨"staff", "v"⟩ (.response 503) 12 9).error = some e ∧ e ≠ "") :=
  ⟨failed_probe_unhealthy ⟨"guest", "u"⟩ (.transportFailure "timeout of 5000ms exceeded") 5000 9
      (Or.inl ⟨"timeout of 5000ms exceeded", rfl, by decide⟩),
    failed_probe_unhealthy ⟨"staff", "v"⟩ (.response 503) 12 9
      (Or.inr ⟨503, rfl, by omega⟩)⟩

/-- C3: `checkServiceHealth` is total: for every target and every probe
outcome it returns a `ServiceStatus` record carrying the target's name, and
every failure mode is encoded in the record (the status is `healthy` with no
error, or `unhealthy` with an error string) — nothing escapes to the caller. -/
theorem checkServiceHealth_total (service : ServiceTarget) (outcome : ProbeOutcome)
    (responseTime now : Nat) :
    (checkServiceHealth service outcome responseTime now).name = service.name ∧
    (((checkServiceHealth service outcome responseTime now).status = .healthy ∧
        (checkServiceHealth service outcome responseTime now).error = none) ∨
      ((checkServiceHealth service outcome responseTime now).status = .unhealthy ∧
        ∃ e, (checkServiceHealth service outcome responseTime now).error = some e)) := by
  match outcome with
  | .response code =>
      by_cases h : code < 500
      · exact ⟨by simp [checkServiceHealth, h], Or.inl (by simp [checkServiceHealth, h])⟩
      · exact ⟨by simp [checkServiceHealth, h], Or.inr ⟨by simp [checkServiceHealth, h],
          axiosRejectMessage code, by simp [checkServiceHealth, h]⟩⟩
  | .transportFailure msg =>
      exact ⟨rfl, Or.inr ⟨rfl, msg, rfl⟩⟩

theorem countKey_cons (p : String × ServiceStatus) (l : StatusStore) (k : String) :
    countKey (p :: l) k = countKey l k + (if p.1 = k then 1 else 0) := by
  by_cases h : p.1 = k <;> simp [countKey, List.countP_cons, h]

theorem storeGet_cons (p : String × ServiceStatus) (l : StatusStore) (k : String) :
    storeGet (p :: l) k = if p.1 = k then some p.2 else storeGet l k := by
  simp only [storeGet, List.find?]
  by_cases h : p.1 = k
  · rw [show (p.1 == k) = true from beq_iff_eq.mpr h, if_pos h]
    rfl
  · rw [show (p.1 == k) = false from beq_eq_false_iff_ne.mpr h, if_neg h]

theorem mapSet_cons_pos (p : String × ServiceStatus) (rest : StatusStore)
    (k : String) (v : ServiceStatus) (h : p.1 = k) :
    mapSet (p :: rest) k v = (k, v) :: rest := by
  simp [mapSet, h]

theorem mapSet_cons_neg (p : String × ServiceStatus) (rest : StatusStore)
    (k : String) (v : ServiceStatus) (h : ¬ p.1 = k) :
    mapSet (p :: rest) k v = p :: mapSet rest k v := by
  simp [mapSet, h]

theorem countKey_mapSet (m : StatusStore) (k : String) (v : ServiceStatus) (k₂ : String) :
    countKey (mapSet m k v) k₂ =
      if k = k₂ ∧ countKey m k = 0 then countKey m k₂ + 1 else countKey m k₂ := by
  induction m with
  | nil =>
      by_cases h : k = k₂ <;>
        simp [countKey, mapSet, List.countP_cons, h]
  | cons p rest ih =>
      by_cases hpk : p.1 = k
      · have h0 : ¬ (k = k₂ ∧ countKey (p :: rest) k = 0) := by
          rintro ⟨-, hc⟩
          rw [countKey_cons, if_pos hpk] at hc
          omega
        rw [mapSet_cons_pos p rest k v hpk, if_neg h0, countKey_cons, countKey_cons, hpk]
      · have hck : countKey (p :: rest) k = countKey rest k := by
          rw [countKey_cons, if_neg hpk, Nat.add_zero]
        rw [hck, mapSet_cons_neg p rest k v hpk, countKey_cons, ih, countKey_cons]
        by_cases hc : k = k₂ ∧ countKey rest k = 0
        · rw [if_pos hc, if_pos hc]
          omega
        · rw [if_neg hc, if_neg hc]

theorem storeGet_mapSet (m : StatusStore) (k : String) (v : ServiceStatus) (k₂ : String) :
    storeGet (mapSet m k v) k₂ = if k = k₂ then some v else storeGet m k₂ := by
  induction m with
  | nil =>
      rw [show mapSet [] k v = [(k, v)] from rfl, storeGet_cons]
  | cons p rest ih =>
      by_cases hpk : p.1 = k
      · rw [mapSet_cons_pos p rest k v hpk, storeGet_cons, storeGet_cons]
        by_cases h : k = k₂
        · simp [h]
        · have hp2 : ¬ p.1 = k₂ := fun hp => h (hpk.symm.trans hp)
          simp [h, hp2]
      · rw [mapSet_cons_neg p rest k v hpk, storeGet_cons, storeGet_cons, ih]
        by_cases hp2 : p.1 = k₂
        · have hk : ¬ k = k₂ := fun he => hpk (hp2.trans he.symm)
          simp [hp2, hk]
        · simp [hp2]

theorem countKey_mapSet_le (m : StatusStore) (k : String) (v : ServiceStatus) (k₂ : String)
    (h : countKey m k₂ ≤ 1) : countKey (mapSet m k v) k₂ ≤ 1 := by
  rw [countKey_mapSet]
  by_cases hc : k = k₂ ∧ countKey m k = 0
  · rw [if_pos hc]
    have h0 : countKey m k₂ = 0 := by rw [← hc.1]; exact hc.2
    omega
  · rw [if_neg hc]
    exact h

theorem cycleFold_cons (pr : ServiceTarget × ProbeResult)
    (rest : List (ServiceTarget × ProbeResult)) (now : Nat) (st : StatusStore) :
    cycleFold (pr :: rest) now st =
      cycleFold rest now
        (mapSet st (cycleKey pr.1) (settleStatus (cycleKey pr.1) pr.2 now)) := rfl

theorem countKey_cycleFold_le (pairs : List (ServiceTarget × ProbeResult)) (now : Nat)
    (st : StatusStore) (k : String) (h : countKey st k ≤ 1) :
    countKey (cycleFold pairs now st) k ≤ 1 := by
  induction pairs generalizing st with
  | nil => exact h
  | cons pr rest ih =>
      rw [cycleFold_cons]
      exact ih _ (countKey_mapSet_le _ _ _ _ h)

theorem countKey_cycleFold_stable (pairs : List (ServiceTarget × ProbeResult)) (now : Nat)
    (st : StatusStore) (k : String) (h : countKey st k = 1) :
    countKey (cycleFold pairs now st) k = 1 := by
  induction pairs generalizing st with
  | nil => exact h
  | cons pr rest ih =>
      rw [cycleFold_cons]
      apply ih
      rw [countKey_mapSet]
      by_cases hc : cycleKey pr.1 = k ∧ countKey st (cycleKey pr.1) = 0
      · have h0 : countKey st k = 0 := by rw [← hc.1]; exact hc.2
        exact absurd (h.symm.trans h0) one_ne_zero
      · rw [if_neg hc]
        exact h

theorem countKey_cycleFold_mem (pairs : List (ServiceTarget × ProbeResult)) (now : Nat)
    (st : StatusStore) (k : String)
    (hmem : k ∈ pairs.map (fun pr => cycleKey pr.1)) (h : countKey st k ≤ 1) :
    countKey (cycleFold pairs now st) k = 1 := by
  induction pairs generalizing st with
  | nil => simp at hmem
  | cons pr rest ih =>
      rw [List.map_cons, List.mem_cons] at hmem
      rw [cycleFold_cons]
      rcases hmem with he | hm
      · subst he
        apply countKey_cycleFold_stable
        rw [countKey_mapSet]
        by_cases h0 : countKey st (cycleKey pr.1) = 0
        · rw [if_pos ⟨rfl, h0⟩, h0]
        · rw [if_neg (fun hc => h0 hc.2)]
          omega
      · exact ih _ hm (countKey_mapSet_le _ _ _ _ h)

theorem storeGet_cycleFold_not_mem (pairs : List (ServiceTarget × ProbeResult)) (now : Nat)
    (st : StatusStore) (k : String)
    (hmem : k ∉ pairs.map (fun pr => cycleKey pr.1)) :
    storeGet (cycleFold pairs now st) k = storeGet st k := by
  induction pairs generalizing st with
  | nil => rfl
  | cons pr rest ih =>
      rw [List.map_cons, List.mem_cons] at hmem
      push_neg at hmem
      rw [cycleFold_cons, ih _ hmem.2, storeGet_mapSet,
        if_neg (fun he => hmem.1 he.symm)]

theorem storeGet_cycleFold_mem (pairs : List (ServiceTarget × ProbeResult)) (now : Nat)
    (st : StatusStore) (t : ServiceTarget) (r : ProbeResult)
    (hnd : (pairs.map (fun pr => cycleKey pr.1)).Nodup)
    (hmem : (t, r) ∈ pairs) :
    storeGet (cycleFold pairs now st) (cycleKey t) =
      some (settleStatus (cycleKey t) r now) := by
  induction pairs generalizing st with
  | nil => simp at hmem
  | cons pr rest ih =>
      simp only [List.map_cons, List.nodup_cons] at hnd
      rw [List.mem_cons] at hmem
      rw [cycleFold_cons]
      rcases hmem with he | hm
      · subst he
        rw [storeGet_cycleFold_not_mem rest now _ (cycleKey (t, r).1) hnd.1,
          storeGet_mapSet]
        simp
      · exact ih _ hnd.2 hm

theorem runCycle_eq (targets : List ServiceTarget) (results : List ProbeResult)
    (now : Nat) (store : StatusStore) :
    runCycle targets results now store = cycleFold (targets.zip results) now store := rfl

theorem zip_cycleKeys (targets : List ServiceTarget) (results : List ProbeResult)
    (hlen : results.length = targets.length) :
    (targets.zip results).map (fun pr => cycleKey pr.1) = targets.map cycleKey := by
  rw [show (fun pr : ServiceTarget × ProbeResult => cycleKey pr.1) =
      (cycleKey ∘ Prod.fst) from rfl, ← List.map_map,
    List.map_fst_zip _ _ (le_of_eq hlen.symm)]

theorem map_cycleKey_eq_names (targets : List ServiceTarget)
    (h : ∀ t ∈ targets, t.name ≠ "") :
    targets.map cycleKey = targets.map ServiceTarget.name := by
  apply List.map_congr_left
  intro t ht
  simp [cycleKey, h t ht]

/-- C4: when the prober invocation for a registered target is rejected
(fails to produce a result), the completed cycle stores for that target the
synthesized record with `status = unknown`, `uptime = 0` and the fixed error
`'Health check failed'`, and the cycle yields exactly one stored status for
that target. -/
theorem rejected_result_synthesized (targets : List ServiceTarget)
    (results : List ProbeResult) (now : Nat) (store : StatusStore) (T : ServiceTarget)
    (hT : (T, ProbeResult.rejected) ∈ targets.zip results)
    (hnames : (targets.map ServiceTarget.name).Nodup)
    (hne : ∀ t ∈ targets, t.name ≠ "")
    (hlen : results.length = targets.length)
    (hstore : countKey store T.name ≤ 1) :
    storeGet (runCycle targets results now store) T.name =
      some { name := T.name, status := HealthState.unknown, responseTime := 0,
             lastCheck := now, uptime := 0, error := some "Health check failed" } ∧
    countKey (runCycle targets results now store) T.name = 1 := by
  have hTmem : T ∈ targets := (List.of_mem_zip hT).1
  have hkey : cycleKey T = T.name := by simp [cycleKey, hne T hTmem]
  have hkeys : (targets.zip results).map (fun pr => cycleKey pr.1) =
      targets.map ServiceTarget.name := by
    rw [zip_cycleKeys targets results hlen, map_cycleKey_eq_names targets hne]
  constructor
  · rw [runCycle_eq, ← hkey,
      storeGet_cycleFold_mem (targets.zip results) now store T ProbeResult.rejected
        (by rw [hkeys]; exact hnames) hT, hkey]
    rfl
  · rw [runCycle_eq]
    apply countKey_cycleFold_mem
    · rw [hkeys]
      exact List.mem_map.mpr ⟨T, hTmem, rfl⟩
    · exact hstore

/-- Witness for C4: a two-target cycle in which the second target's prober
invocation is rejected. -/
theorem rejected_result_synthesized_witness :
    storeGet (runCycle [⟨"a", "u"⟩, ⟨"b", "v"⟩]
        [ProbeResult.fulfilled (checkServiceHealth ⟨"a", "u"⟩ (.response 200) 3 5),
          ProbeResult.rejected] 9 []) "b" =
      some { name := "b", status := HealthState.unknown, responseTime := 0,
             lastCheck := 9, uptime := 0, error := some "Health check failed" } ∧
    countKey (runCycle [⟨"a", "u"⟩, ⟨"b", "v"⟩]
        [ProbeResult.fulfilled (checkServiceHealth ⟨"a", "u"⟩ (.response 200) 3 5),
          ProbeResult.rejected] 9 []) "b" = 1 :=
  rejected_result_synthesized [⟨"a", "u"⟩, ⟨"b", "v"⟩]
    [ProbeResult.fulfilled (checkServiceHealth ⟨"a", "u"⟩ (.response 200) 3 5),
      ProbeResult.rejected] 9 [] ⟨"b", "v"⟩
    (by decide) (by decide) (by decide) (by decide) (by decide)

/-- C5: after any completed polling cycle, the status store holds exactly
one entry keyed by each registered target's name, and the at-most-one-entry
invariant holds for every key, so the property is preserved by every
subsequent cycle. -/
theorem store_one_entry_per_target (targets : List ServiceTarget)
    (results : List ProbeResult) (now : Nat) (store : StatusStore) (T : ServiceTarget)
    (hT : T ∈ targets) (hname : T.name ≠ "")
    (hlen : results.length = targets.length)
    (hstore : ∀ k, countKey store k ≤ 1) :
    countKey (runCycle targets results now store) T.name = 1 ∧
    ∀ k, countKey (runCycle targets results now store) k ≤ 1 := by
  have hkey : cycleKey T = T.name := by simp [cycleKey, hname]
  constructor
  · rw [runCycle_eq]
    apply countKey_cycleFold_mem
    · rw [zip_cycleKeys targets results hlen]
      exact List.mem_map.mpr ⟨T, hT, hkey⟩
    · exact hstore T.name
  · intro k
    rw [runCycle_eq]
    exact countKey_cycleFold_le _ _ _ _ (hstore k)

/-- Witness for C5: the two-cycle composition on the concrete registry
target `backend`, checking exactly-one entry after a cycle and the
at-most-one invariant at another key. -/
theorem store_one_entry_per_target_witness :
    countKey (runCycle services (List.replicate 7 ProbeResult.rejected) 4 []) "backend" = 1 ∧
    countKey (runCycle services (List.replicate 7 ProbeResult.rejected) 4 []) "gateway" ≤ 1 :=
  ⟨(store_one_entry_per_target services (List.replicate 7 ProbeResult.rejected) 4 []
      ⟨"backend", "http://localhost:5000/health"⟩
      (by decide) (by decide) (by decide) (fun _ => Nat.zero_le 1)).1,
    (store_one_entry_per_target services (List.replicate 7 ProbeResult.rejected) 4 []
      ⟨"backend", "http://localhost:5000/health"⟩
      (by decide) (by decide) (by decide) (fun _ => Nat.zero_le 1)).2 "gateway"⟩

theorem mem_mapSet (m : StatusStore) (k : String) (v : ServiceStatus)
    (q : String × ServiceStatus) (h : q ∈ mapSet m k v) : q ∈ m ∨ q = (k, v) := by
  induction m with
  | nil =>
      rw [show mapSet [] k v = [(k, v)] from rfl] at h
      exact Or.inr (List.mem_singleton.mp h)
  | cons p rest ih =>
      by_cases hpk : p.1 = k
      · rw [mapSet_cons_pos p rest k v hpk] at h
        rcases List.mem_cons.mp h with h | h
        · exact Or.inr h
        · exact Or.inl (List.mem_cons_of_mem _ h)
      · rw [mapSet_cons_neg p rest k v hpk] at h
        rcases List.mem_cons.mp h with h | h
        · exact Or.inl (by rw [h]; exact List.mem_cons_self p rest)
        · rcases ih h with h2 | h2
          · exact Or.inl (List.mem_cons_of_mem _ h2)
          · exact Or.inr h2

theorem mem_cycleFold (pairs : List (ServiceTarget × ProbeResult)) (now : Nat)
    (st : StatusStore) (q : String × ServiceStatus) (h : q ∈ cycleFold pairs now st) :
    q ∈ st ∨ ∃ pr ∈ pairs, q = (cycleKey pr.1, settleStatus (cycleKey pr.1) pr.2 now) := by
  induction pairs generalizing st with
  | nil => exact Or.inl h
  | cons pr rest ih =>
      rw [cycleFold_cons] at h
      rcases ih _ h with h2 | ⟨pr2, hpr2, he⟩
      · rcases mem_mapSet _ _ _ _ h2 with h3 | h3
        · exact Or.inl h3
        · exact Or.inr ⟨pr, List.mem_cons_self _ _, h3⟩
      · exact Or.inr ⟨pr2, List.mem_cons_of_mem _ hpr2, he⟩

theorem checkServiceHealth_healthy_no_error (service : ServiceTarget)
    (outcome : ProbeOutcome) (rt now : Nat)
    (h : (checkServiceHealth service outcome rt now).status = HealthState.healthy) :
    (checkServiceHealth service outcome rt now).error = none := by
  cases outcome with
  | response code =>
      by_cases hc : code < 500
      · simp [checkServiceHealth, hc]
      · simp [checkServiceHealth, hc] at h
  | transportFailure msg =>
      simp [checkServiceHealth] at h

/-- C6: every record a completed cycle places in the store — whether
returned by the prober or synthesized for a rejected invocation — carries
an error string only when its status is not `healthy`. -/
theorem store_error_only_when_unhealthy (targets : List ServiceTarget)
    (results : List ProbeResult) (now : Nat) (store : StatusStore)
    (hres : ∀ s, ProbeResult.fulfilled s ∈ results →
        ∃ service outcome rt t, s = checkServiceHealth service outcome rt t)
    (hstore : ∀ q ∈ store, errorOnlyWhenUnhealthy q.2) :
    ∀ q ∈ runCycle targets results now store, errorOnlyWhenUnhealthy q.2 := by
  intro q hq
  rw [runCycle_eq] at hq
  rcases mem_cycleFold _ _ _ _ hq with hmem | ⟨pr, hpr, he⟩
  · exact hstore q hmem
  · obtain ⟨t, r⟩ := pr
    have hrmem : r ∈ results := (List.of_mem_zip hpr).2
    cases r with
    | fulfilled s =>
        obtain ⟨service, outcome, rt, tt, hs⟩ := hres s hrmem
        intro hhealthy
        have hq2 : q.2 = s := by rw [he]; rfl
        rw [hq2, hs] at hhealthy ⊢
        exact checkServiceHealth_healthy_no_error _ _ _ _ hhealthy
    | rejected =>
        intro hhealthy
        have hq2 : q.2 = settleStatus (cycleKey t) ProbeResult.rejected now := by
          rw [he]
        rw [hq2] at hhealthy
        simp [settleStatus] at hhealthy

/-- Witness for C6: a concrete cycle with one prober-returned record and
one synthesized record; the synthesized entry satisfies the error
discipline. -/
theorem store_error_only_when_unhealthy_witness :
    errorOnlyWhenUnhealthy (settleStatus "b" ProbeResult.rejected 9) :=
  store_error_only_when_unhealthy [⟨"a", "u"⟩, ⟨"b", "v"⟩]
    [ProbeResult.fulfilled (checkServiceHealth ⟨"a", "u"⟩ (.response 200) 3 5),
      ProbeResult.rejected] 9 []
    (fun s hs => by
      rcases List.mem_cons.mp hs with h | h
      · injection h with h2
        exact ⟨⟨"a", "u"⟩, .response 200, 3, 5, h2⟩
      · rcases List.mem_cons.mp h with h | h
        · exact ProbeResult.noConfusion h
        · exact absurd h (List.not_mem_nil _))
    (fun q hq => absurd hq (List.not_mem_nil q))
    ("b", settleStatus "b" ProbeResult.rejected 9) (by decide)

theorem broadcast_cons (d : WsClient) (rest : List WsClient) (store : StatusStore)
    (ts : String) :
    broadcastStatus (d :: rest) store ts =
      if d.readyState = 1
      then (d.id, statusData store ts) :: broadcastStatus rest store ts
      else broadcastStatus rest store ts := by
  by_cases h : d.readyState = 1 <;>
    simp [broadcastStatus, List.filter_cons, h]

theorem broadcast_count_zero (rest : List WsClient) (store : StatusStore) (ts : String)
    (i : Nat) (h : i ∉ rest.map WsClient.id) :
    (broadcastStatus rest store ts).countP (fun p => p.1 == i) = 0 := by
  induction rest with
  | nil => rfl
  | cons d rest2 ih =>
      simp only [List.map_cons, List.mem_cons] at h
      push_neg at h
      rw [broadcast_cons]
      by_cases hd : d.readyState = 1
      · rw [if_pos hd, List.countP_cons]
        have hne : (d.id == i) = false :=
          beq_eq_false_iff_ne.mpr (fun hh => h.1 hh.symm)
        simp [hne, ih h.2]
      · rw [if_neg hd]
        exact ih h.2

theorem broadcast_count_one (clients : List WsClient) (store : StatusStore) (ts : String)
    (c : WsClient) (hc : c ∈ clients) (hopen : c.readyState = 1)
    (hids : (clients.map WsClient.id).Nodup) :
    (broadcastStatus clients store ts).countP (fun p => p.1 == c.id) = 1 := by
  induction clients with
  | nil => cases hc
  | cons d rest ih =>
      simp only [List.map_cons, List.nodup_cons] at hids
      rw [broadcast_cons]
      rcases List.mem_cons.mp hc with he | hm
      · subst he
        rw [if_pos hopen, List.countP_cons]
        have h0 : (broadcastStatus rest store ts).countP (fun p => p.1 == c.id) = 0 :=
          broadcast_count_zero rest store ts c.id hids.1
        simp [h0]
      · have hne : d.id ≠ c.id :=
          fun hh => hids.1 (by rw [hh]; exact List.mem_map.mpr ⟨c, hm, rfl⟩)
        by_cases hd : d.readyState = 1
        · rw [if_pos hd, List.countP_cons]
          have hb : (d.id == c.id) = false := beq_eq_false_iff_ne.mpr hne
          simp [hb, ih hm hids.2]
        · rw [if_neg hd]
          exact ih hm hids.2

/-- C7: each completed cycle performs exactly one broadcast: one send per
live (OPEN) connection — exactly one message per such connection when the
connection set is a set (distinct ids) — and every send carries the same
payload: the full updated-store snapshot with the broadcast timestamp. -/
theorem broadcast_per_cycle (targets : List ServiceTarget) (results : List ProbeResult)
    (now : Nat) (store : StatusStore) (clients : List WsClient) (ts : String)
    (hids : (clients.map WsClient.id).Nodup) :
    (monitorCycle targets results now store clients ts).2.length =
      (clients.filter (fun c => c.readyState == 1)).length ∧
    (∀ c ∈ clients, c.readyState = 1 →
      (monitorCycle targets results now store clients ts).2.countP
        (fun p => p.1 == c.id) = 1) ∧
    ∀ p ∈ (monitorCycle targets results now store clients ts).2,
      p.2 = statusData (runCycle targets results now store) ts := by
  refine ⟨?_, ?_, ?_⟩
  · simp [monitorCycle, broadcastStatus]
  · intro c hc hopen
    exact broadcast_count_one clients _ ts c hc hopen hids
  · intro p hp
    have hp2 : p ∈ (clients.filter (fun c => c.readyState == 1)).map
        (fun c => (c.id, statusData (runCycle targets results now store) ts)) := hp
    rcases List.mem_map.mp hp2 with ⟨c, hcmem, hfc⟩
    rw [← hfc]

/-- Witness for C7: a two-client set in which only client 1 is OPEN. -/
theorem broadcast_per_cycle_witness :
    (monitorCycle [⟨"a", "u"⟩] [ProbeResult.rejected] 4 []
        [⟨1, 1, false⟩, ⟨2, 3, false⟩] "T").2.length =
      (([⟨1, 1, false⟩, ⟨2, 3, false⟩] : List WsClient).filter
        (fun c => c.readyState == 1)).length ∧
    (monitorCycle [⟨"a", "u"⟩] [ProbeResult.rejected] 4 []
        [⟨1, 1, false⟩, ⟨2, 3, false⟩] "T").2.countP (fun p => p.1 == 1) = 1 :=
  ⟨(broadcast_per_cycle [⟨"a", "u"⟩] [ProbeResult.rejected] 4 []
      [⟨1, 1, false⟩, ⟨2, 3, false⟩] "T" (by decide)).1,
    (broadcast_per_cycle [⟨"a", "u"⟩] [ProbeResult.rejected] 4 []
      [⟨1, 1, false⟩, ⟨2, 3, false⟩] "T" (by decide)).2.1 ⟨1, 1, false⟩
      (by decide) rfl⟩

theorem broadcast_ignores_sendFails (clients clients2 : List WsClient)
    (store : StatusStore) (ts : String)
    (h : clients.map (fun c => (c.id, c.readyState)) =
      clients2.map (fun c => (c.id, c.readyState))) :
    broadcastStatus clients store ts = broadcastStatus clients2 store ts := by
  induction clients generalizing clients2 with
  | nil =>
      cases clients2 with
      | nil => rfl
      | cons d2 rest2 => simp at h
  | cons d rest ih =>
      cases clients2 with
      | nil => simp at h
      | cons d2 rest2 =>
          simp only [List.map_cons, List.cons.injEq, Prod.mk.injEq] at h
          obtain ⟨⟨hid, hrs⟩, htl⟩ := h
          rw [broadcast_cons, broadcast_cons, hid, hrs, ih rest2 htl]

/-- C8: a connection whose send failed is (via the transport's close event
and the hub's close handler) absent from the live set at the next broadcast
attempt, so that broadcast sends it nothing; meanwhile every other open
connection still receives exactly one message in both the current and the
next broadcast, and the broadcast output does not depend on which
connections' sends fail. -/
theorem failed_send_connection_removed (clients : List WsClient) (c : WsClient)
    (store store2 : StatusStore) (ts ts2 : String)
    (hc : c ∈ clients) (hopen : c.readyState = 1) (hfail : c.sendFails = true)
    (hids : (clients.map WsClient.id).Nodup) :
    (broadcastStatus (handleClose clients c) store2 ts2).countP
      (fun p => p.1 == c.id) = 0 ∧
    (∀ c2 ∈ clients, c2.readyState = 1 → c2.id ≠ c.id →
      (broadcastStatus clients store ts).countP (fun p => p.1 == c2.id) = 1 ∧
      (broadcastStatus (handleClose clients c) store2 ts2).countP
        (fun p => p.1 == c2.id) = 1) ∧
    ∀ clients2 : List WsClient,
      clients2.map (fun x => (x.id, x.readyState)) =
        clients.map (fun x => (x.id, x.readyState)) →
      broadcastStatus clients2 store ts = broadcastStatus clients store ts := by
  have hsub : List.Sublist ((handleClose clients c).map WsClient.id)
      (clients.map WsClient.id) :=
    List.Sublist.map WsClient.id (List.filter_sublist clients)
  have hnd2 : ((handleClose clients c).map WsClient.id).Nodup := hids.sublist hsub
  refine ⟨?_, ?_, ?_⟩
  · apply broadcast_count_zero
    intro hmem
    rcases List.mem_map.mp hmem with ⟨d, hd, hdid⟩
    rcases List.mem_filter.mp hd with ⟨-, hne⟩
    rw [bne_iff_ne] at hne
    exact hne hdid
  · intro c2 hc2 hopen2 hne2
    refine ⟨broadcast_count_one clients store ts c2 hc2 hopen2 hids, ?_⟩
    apply broadcast_count_one _ store2 ts2 c2 _ hopen2 hnd2
    exact List.mem_filter.mpr ⟨hc2, bne_iff_ne.mpr hne2⟩
  · intro clients2 h2
    exact broadcast_ignores_sendFails clients2 clients store ts h2

/-- Witness for C8: client 1 is open and its send fails; client 2 is open
and healthy; a flag-flipped copy of the connection list broadcasts
identically. -/
theorem failed_send_connection_removed_witness :
    (broadcastStatus (handleClose [⟨1, 1, true⟩, ⟨2, 1, false⟩] ⟨1, 1, true⟩) [] "U").countP
      (fun p => p.1 == (1 : Nat)) = 0 ∧
    ((broadcastStatus [⟨1, 1, true⟩, ⟨2, 1, false⟩] [] "T").countP
        (fun p => p.1 == (2 : Nat)) = 1 ∧
      (broadcastStatus (handleClose [⟨1, 1, true⟩, ⟨2, 1, false⟩] ⟨1, 1, true⟩) [] "U").countP
        (fun p => p.1 == (2 : Nat)) = 1) ∧
    broadcastStatus [⟨1, 1, false⟩, ⟨2, 1, true⟩] [] "T" =
      broadcastStatus [⟨1, 1, true⟩, ⟨2, 1, false⟩] [] "T" :=
  ⟨(failed_send_connection_removed [⟨1, 1, true⟩, ⟨2, 1, false⟩] ⟨1, 1, true⟩ [] [] "T" "U"
      (by decide) rfl rfl (by decide)).1,
    (failed_send_connection_removed [⟨1, 1, true⟩, ⟨2, 1, false⟩] ⟨1, 1, true⟩ [] [] "T" "U"
      (by decide) rfl rfl (by decide)).2.1 ⟨2, 1, false⟩ (by decide) rfl (by decide),
    (failed_send_connection_removed [⟨1, 1, true⟩, ⟨2, 1, false⟩] ⟨1, 1, true⟩ [] [] "T" "U"
      (by decide) rfl rfl (by decide)).2.2 [⟨1, 1, false⟩, ⟨2, 1, true⟩] (by decide)⟩

/-- C9: a connecting client is registered in the live set and immediately
sent exactly one snapshot message — returned alongside the updated set —
whose data is the store contents as of connect time. -/
theorem connection_registered_and_snapshotted (clients : List WsClient)
    (ws : WsClient) (store : StatusStore) :
    ws.id ∈ (handleConnection clients ws store).1.map WsClient.id ∧
    (handleConnection clients ws store).2.type = "status" ∧
    (handleConnection clients ws store).2.data = storeValues store ∧
    (handleConnection clients ws store).2.timestamp = none := by
  refine ⟨?_, rfl, rfl, rfl⟩
  show ws.id ∈ (setAdd clients ws).map WsClient.id
  rw [setAdd]
  by_cases h : clients.any (fun c => c.id == ws.id)
  · rw [if_pos h]
    rcases List.any_eq_true.mp h with ⟨d, hd, hdid⟩
    exact List.mem_map.mpr ⟨d, hd, beq_iff_eq.mp hdid⟩
  · rw [if_neg h]
    exact List.mem_map.mpr
      ⟨ws, List.mem_append.mpr (Or.inr (List.mem_singleton.mpr rfl)), rfl⟩

theorem filter_split_length (l : List ServiceStatus) :
    (l.filter (fun s => s.status = HealthState.healthy)).length +
      (l.filter (fun s => ¬ s.status = HealthState.healthy)).length = l.length := by
  induction l with
  | nil => rfl
  | cons s rest ih =>
      by_cases h : s.status = HealthState.healthy <;>
        simp [List.filter_cons, h] at ih ⊢ <;> omega

theorem filter_healthy_all (l : List ServiceStatus) :
    (l.filter (fun s => s.status = HealthState.healthy)).length = l.length ↔
      ∀ s ∈ l, s.status = HealthState.healthy := by
  induction l with
  | nil => simp
  | cons s rest ih =>
      by_cases h : s.status = HealthState.healthy
      · simp [List.filter_cons, h, ih]
      · simp [List.filter_cons, h]
        intro hlen
        have hle := List.length_filter_le
          (fun s => decide (s.status = HealthState.healthy)) rest
        omega

/-- C10: in the `/api/status` summary, `unhealthyServices` counts exactly
the stored entries whose status is not `healthy` (total minus healthy, so
`unknown` counts as unhealthy), and `overallHealth` is `"healthy"` exactly
when every stored entry is healthy — vacuously so, with zero
`totalServices`, for the empty store before the first cycle completes. -/
theorem api_status_summary (store : StatusStore) :
    (apiStatus store).unhealthyServices =
      ((storeValues store).filter (fun s => ¬ s.status = HealthState.healthy)).length ∧
    ((apiStatus store).overallHealth = "healthy" ↔
      ∀ s ∈ storeValues store, s.status = HealthState.healthy) ∧
    (apiStatus []).overallHealth = "healthy" ∧
    (apiStatus []).totalServices = 0 := by
  have hsplit := filter_split_length (storeValues store)
  refine ⟨?_, ?_, rfl, rfl⟩
  · show (storeValues store).length -
      ((storeValues store).filter (fun s => s.status = HealthState.healthy)).length = _
    omega
  · show (if ((storeValues store).filter
        (fun s => s.status = HealthState.healthy)).length =
          (storeValues store).length
      then "healthy" else "degraded") = "healthy" ↔ _
    by_cases hc : ((storeValues store).filter
        (fun s => s.status = HealthState.healthy)).length = (storeValues store).length
    · rw [if_pos hc]
      exact ⟨fun _ => (filter_healthy_all _).mp hc, fun _ => rfl⟩
    · rw [if_neg hc]
      constructor
      · intro hd
        exact absurd hd (by decide)
      · intro hall
        exact absurd ((filter_healthy_all _).mpr hall) hc

end Monitoring
